import Mathlib

/-!
# Velora download-orchestration engine: a shallow embedding

This file embeds the acquisition-and-post-processing logic of the Velora
repository (module `Velora/downloader.py` and `Velora/ffmpeg_utils.py`) as
pure Lean functions, and proves properties of that embedding.

Modelling conventions:
* The working directory is a list of `FileRec` values in creation order;
  `pathlib` glob results are read off that list in order.
* The two external binaries (the fetch tool and the transcoder) are black
  boxes; an `Env` value records the outcome each invocation would produce
  (exit codes, files created, whether the stream-copy or re-encode paths of
  the transcoder succeed, whether probing works).  A failed transcoder run
  is modelled as producing no output file.
* Python `Exception`s raised by an external call are modelled with
  `Except String`; code whose own `try/except` swallows them is total.
* Timestamps are natural numbers in milliseconds, so that Python's
  `int(time.time())` becomes division by 1000.
-/

namespace Velora

/-- Is the char list `p` an initial run of `l`? -/
def headRun : List Char → List Char → Bool
  | _, [] => true
  | [], _ :: _ => false
  | c :: cs, p :: ps => c == p && headRun cs ps

/-- Does the char list `l` contain `p` as a contiguous run? -/
def hasSubL : List Char → List Char → Bool
  | [], p => p.isEmpty
  | c :: cs, p => headRun (c :: cs) p || hasSubL cs p

/-- Substring test on strings; models the Python `in` operator. -/
def strContains (s pat : String) : Bool := hasSubL s.data pat.data

/-- Does `s` start with `pat`?  (`str.startswith`.) -/
def strStarts (s pat : String) : Bool := headRun s.data pat.data

/-- Python `str.strip()`: drop whitespace from both ends. -/
def trimL (s : String) : String :=
  ⟨((s.data.dropWhile Char.isWhitespace).reverse.dropWhile Char.isWhitespace).reverse⟩

/-- Python `str.lower()` (over the ASCII range the code exercises). -/
def lowerL (s : String) : String := ⟨s.data.map Char.toLower⟩

/-- Python `int(...)` on a digit string, as an option. -/
def toNatL (s : String) : Option Nat :=
  if s.data.isEmpty then none
  else if s.data.all Char.isDigit then
    some (s.data.foldl (fun n c => n * 10 + (c.toNat - 48)) 0)
  else none

/-- Left-to-right non-overlapping replacement on char lists, driven by fuel
(one unit per examined char, which suffices). -/
def replaceFuel : Nat → List Char → List Char → List Char → List Char
  | 0, s, _, _ => s
  | Nat.succ n, s, pat, repl =>
    match s with
    | [] => []
    | c :: cs =>
      if headRun (c :: cs) pat && !pat.isEmpty then
        repl ++ replaceFuel n (List.drop pat.length (c :: cs)) pat repl
      else c :: replaceFuel n cs pat repl

/-- Python `str.replace(pat, repl)`: every occurrence, left to right. -/
def strReplace (s pat repl : String) : String :=
  ⟨replaceFuel s.data.length s.data pat.data repl.data⟩

/-- Models Python `resolution.replace("p", "")`: drop every letter p. -/
def stripPChars (s : String) : String := ⟨s.data.filter (fun c => c != 'p')⟩

/-- `int(target_resolution.replace("p", ""))`; the callers only reach this on
the fixed resolution tiers, for which the parse always succeeds. -/
def heightOf (resolution : String) : Nat := (toNatL (stripPChars resolution)).getD 0

/-- Known-platform domain list from `Downloader._is_valid_url`. -/
def validDomains : List String :=
  ["youtube.com", "youtu.be", "vimeo.com", "dailymotion.com",
   "twitch.tv", "facebook.com", "instagram.com", "tiktok.com",
   "twitter.com", "x.com", "reddit.com", "soundcloud.com"]

/-- `Downloader._is_valid_url`: scheme/`www.` shape check plus a known-domain
substring match, on the stripped URL. -/
def is_valid_url (url : String) : Bool :=
  let u := trimL url
  if u == "" then false
  else if !(strStarts u "http://" || strStarts u "https://" || strStarts u "www.") then false
  else validDomains.any (fun d => strContains (lowerL u) d)

/-- `Downloader._needs_instagram_downscaling`. -/
def needs_instagram_downscaling (resolution : String) : Bool :=
  if resolution == "best" then false
  else ["480p", "360p", "144p"].contains resolution

/-- `Downloader._needs_tiktok_downscaling`. -/
def needs_tiktok_downscaling (resolution : String) : Bool :=
  if resolution == "best" then false
  else ["1080p", "720p", "480p", "360p", "144p"].contains resolution

/-- The yt-dlp format selector computed in `Downloader._build_format_string`. -/
def format_selector (resolution : String) (includeAudio : Bool) : String :=
  if resolution == "best" then
    if includeAudio then "bestvideo+bestaudio/best" else "bestvideo/best"
  else
    let height := stripPChars resolution
    if includeAudio then
      "bestvideo[height<=" ++ height ++ "]+bestaudio/best[height<=" ++ height ++ "]"
    else
      "bestvideo[height<=" ++ height ++ "]/best[height<=" ++ height ++ "]/best"

/-- The desired final container recorded in `self._desired_format`: the
lowercased output format, with `mp4` as the fallback for a falsy value. -/
def desiredFormatOf (outputFormat : String) : String :=
  if outputFormat == "" then "mp4" else lowerL outputFormat

/-- The inline container flags `Downloader._build_format_string` appends to the
fetch command; `webm` and `mov` are excluded and left to post-processing.
`_download_playlist_video_with_options` duplicates this logic verbatim, so the
same definition models both code sites. -/
def container_flags (outputFormat : String) : List String :=
  if outputFormat != "" && !(["webm", "mov"].contains (lowerL outputFormat)) then
    if ["mp4", "mkv"].contains (lowerL outputFormat) then
      ["--remux-video", lowerL outputFormat]
    else
      ["--recode-video", lowerL outputFormat]
  else []

/-- The format-related part of the fetch command built by
`Downloader._build_format_string`. -/
def build_format_opts (resolution : String) (includeAudio : Bool) (outputFormat : String) :
    List String :=
  ["-f", format_selector resolution includeAudio] ++ container_flags outputFormat

/-- The selector built inline in `Downloader._download_playlist_video_with_options`. -/
def playlist_format_selector (resolution : String) (includeAudio : Bool) : String :=
  if resolution == "best" then
    if includeAudio then "bestvideo+bestaudio/best" else "bestvideo"
  else
    let height := stripPChars resolution
    if includeAudio then
      "bestvideo[height<=" ++ height ++ "]+bestaudio/best[height<=" ++ height ++ "]"
    else
      "bestvideo[height<=" ++ height ++ "]"

/-- Batch subdirectory name `playlist_{int(time.time())}` from
`Downloader.download_playlist` and `download_playlist_with_options`;
the run timestamp is in milliseconds and `int()` keeps the whole seconds. -/
def playlist_dir_name (tMillis : Nat) : String :=
  "playlist_" ++ toString (tMillis / 1000)

/-- The error taxonomy used by the stderr classifier. -/
inductive ErrKind where
  | invalidUrl
  | unavailable
  | notFound
  | toolUnavailable
  | unknown
deriving DecidableEq, Repr

/-- The stderr classifier embedded in `Downloader.get_video_info`
(`subprocess.CalledProcessError` branch): substring matching on the stripped
stderr text, in source order, with `unknown` carrying the raw text. -/
def classify_stderr (stderr : String) : ErrKind × String :=
  if stderr != "" then
    let m := trimL stderr
    if strContains m "is not a valid URL" || strContains m "Unsupported URL" then
      (ErrKind.invalidUrl, "Invalid video URL. Please check the URL and try again.")
    else if strContains m "Video unavailable" || strContains m "Private video" then
      (ErrKind.unavailable, "Video is unavailable or private. Please try a different URL.")
    else if strContains m "not found" || strContains m "404" then
      (ErrKind.notFound, "Video not found. Please check the URL and try again.")
    else (ErrKind.unknown, "Could not access video: " ++ m)
  else (ErrKind.unknown, "Could not get video info. Please check the URL and try again.")

/-- One file of the working directory.  `height` is the video height a
successful probe would report (`none`: no video stream / unreadable);
`audio` says whether a probe reports an audio stream. -/
structure FileRec where
  name : String
  mtime : Nat
  height : Option Nat
  audio : Bool
deriving DecidableEq, Repr

/-- The working directory, as a list in creation order. -/
abbrev FS := List FileRec

/-- Look a file up by name (a path resolution). -/
def fsFind (fs : FS) (nm : String) : Option FileRec :=
  fs.find? (fun f => f.name == nm)

/-- `Path.unlink`: drop the file with the given name. -/
def fsRemove (fs : FS) (nm : String) : FS := fs.filter (fun f => f.name != nm)

/-- Create a file (overwriting any file of the same name, as `-y` does). -/
def fsAdd (fs : FS) (f : FileRec) : FS := fsRemove fs f.name ++ [f]

/-- `Path.rename`: same metadata and content under a new name. -/
def fsRename (fs : FS) (old nm2 : String) : FS :=
  fs.map (fun f => if f.name == old then { f with name := nm2 } else f)

/-- `pathlib` suffix of a file name without its dot, original case:
the part after the last dot, empty for dotless, trailing-dot and
leading-dot-only names. -/
def extRaw (name : String) : String :=
  let cs := name.data
  let afterRev := cs.reverse.takeWhile (fun c => c != '.')
  if afterRev.length == cs.length then ""
  else if cs.length - afterRev.length - 1 == 0 then ""
  else if afterRev.isEmpty then ""
  else ⟨afterRev.reverse⟩

/-- `Path.with_suffix`: replace the extension (or append one). -/
def withSuffix (name newExt : String) : String :=
  let e := extRaw name
  if e == "" then name ++ "." ++ newExt
  else (⟨name.data.take (name.data.length - e.data.length)⟩ : String) ++ newExt

/-- The extension patterns the code globs for video files. -/
def videoExts : List String := ["mp4", "mkv", "webm", "avi", "mov"]

/-- Candidate video files: the code extends per-extension glob results in
`videoExts` order, so candidates come grouped by extension. -/
def videoFiles (fs : FS) : FS :=
  videoExts.foldl (fun acc e => acc ++ fs.filter (fun f => extRaw f.name == e)) []

/-- Python `max(files, key=mtime)`: scan once, replace only on a strictly
larger key, so the first maximal element wins ties. -/
def maxByMtime : FS → Option FileRec
  | [] => none
  | f :: rest => some (rest.foldl (fun best g => if best.mtime < g.mtime then g else best) f)

/-- Outcome of one fetch-tool strategy invocation: exit code and the files the
invocation leaves in the working directory (partial files included). -/
structure StratEnv where
  exit : Int
  created : List FileRec
deriving DecidableEq, Repr

/-- Outcomes of the external binaries for one job, fixed up front: the model
of everything outside the orchestration logic. -/
structure Env where
  ffmpegAvailable : Bool
  probeOk : Bool
  fastCopyOk : Bool
  reencodeOk : Bool
  encodeOk : Bool
  removeAudioOk : Bool
  newMtime : Nat
  fetch : Except String (Int × List FileRec)
  audioFetch : Except String (Int × List FileRec)
  strategies : List StratEnv
  tkFetch : Int × List FileRec
  urlHash : Nat
  titleOk : Bool
  titleText : String
deriving Repr

/-- Post-processing stage names for the diagnostic trace. -/
inductive StageTag where
  | fetch
  | stripAudio
  | downscale
  | convert
deriving DecidableEq, Repr

/-- A run's diagnostic trace: stages in execution order with their outcome. -/
abbrev Trace := List (StageTag × Bool)

/-- Outcome of one container conversion: stream-copy fast path, then the
re-encode fallback; the webm branch has a single re-encode path. -/
def convertOutcome (env : Env) (targetExt : String) : Bool :=
  if targetExt == "webm" then env.reencodeOk else env.fastCopyOk || env.reencodeOk

/-- What `FFmpegUtils.get_video_info` reports as the height of a file. -/
def probeHeight (env : Env) (f : FileRec) : Option Nat :=
  if env.probeOk then f.height else none

/-- Result of the downscale stage: the directory afterwards, success, and
whether the video was re-encoded. -/
structure DsResult where
  fs : FS
  ok : Bool
  reencoded : Bool
deriving DecidableEq, Repr

/-- `FFmpegUtils._downscale_with_subprocess`: re-encode to the target height,
copying audio. -/
def downscaleSubprocess (env : Env) (fs : FS) (f : FileRec) (outName : String)
    (targetHeight : Nat) : DsResult :=
  if env.encodeOk then
    ⟨fsAdd fs ⟨outName, env.newMtime, some targetHeight, f.audio⟩, true, true⟩
  else ⟨fs, false, false⟩

/-- `FFmpegUtils.downscale_video`: probe the input; at or below the target the
file is copied unchanged (`shutil.copy2`, which keeps metadata); otherwise
re-encode via the subprocess path. -/
def downscale_video (env : Env) (fs : FS) (inName outName : String)
    (targetHeight : Nat) : DsResult :=
  if !env.ffmpegAvailable then ⟨fs, false, false⟩
  else
    match fsFind fs inName with
    | none => ⟨fs, false, false⟩
    | some f =>
      match probeHeight env f with
      | some h =>
          if h ≤ targetHeight then ⟨fsAdd fs { f with name := outName }, true, false⟩
          else downscaleSubprocess env fs f outName targetHeight
      | none => downscaleSubprocess env fs f outName targetHeight

/-- `Downloader._remove_audio_from_specific_file`: probe, then replace the
file by an audio-free copy under the same name. -/
def removeAudioFromSpecificFile (env : Env) (fs : FS) (nm : String) : FS × Bool :=
  if !env.ffmpegAvailable then (fs, false)
  else
    match fsFind fs nm with
    | none => (fs, true)
    | some f =>
      if !(env.probeOk && f.audio) then (fs, true)
      else if env.removeAudioOk then
        (fsAdd (fsRemove fs nm) { f with audio := false, mtime := env.newMtime }, true)
      else (fs, false)

/-- `Downloader._remove_audio_from_downloaded_files`: same, applied to the
most recent video file of the directory. -/
def removeAudioFromDownloadedFiles (env : Env) (fs : FS) : FS × Bool :=
  if !env.ffmpegAvailable then (fs, false)
  else
    match maxByMtime (videoFiles fs) with
    | none => (fs, true)
    | some latest =>
      if !(env.probeOk && latest.audio) then (fs, true)
      else if env.removeAudioOk then
        (fsAdd (fsRemove fs latest.name) { latest with audio := false, mtime := env.newMtime }, true)
      else (fs, false)

/-- `Downloader._convert_specific_file_to_format`: skip when the extension
already matches; otherwise convert (creating the new file, then unlinking the
input), keeping the input untouched when both transcoder paths fail. -/
def convertSpecificFileToFormat (env : Env) (fs : FS) (nm : String)
    (targetFormat : String) : FS × Bool :=
  let target := lowerL targetFormat
  if lowerL (extRaw nm) == target then (fs, true)
  else if !env.ffmpegAvailable then (fs, false)
  else
    match fsFind fs nm with
    | none => (fs, false)
    | some f =>
      if convertOutcome env target then
        (fsRemove (fsAdd fs { f with name := withSuffix nm target, mtime := env.newMtime }) nm,
         true)
      else (fs, false)

/-- `Downloader._convert_to_format`: the same conversion applied to the most
recent video file of the directory. -/
def convert_to_format (env : Env) (fs : FS) (targetFormat : String) : FS × Bool :=
  match maxByMtime (videoFiles fs) with
  | none => (fs, false)
  | some latest =>
    let targetExt := lowerL targetFormat
    if lowerL (extRaw latest.name) == targetExt then (fs, true)
    else if env.ffmpegAvailable then
      if convertOutcome env targetExt then
        (fsRemove
          (fsAdd fs { latest with name := withSuffix latest.name targetExt, mtime := env.newMtime })
          latest.name, true)
      else (fs, false)
    else (fs, false)

/-- The provisional files of the directory: glob `temp_*`, in listing order. -/
def globTemp (fs : FS) : FS := fs.filter (fun f => strStarts f.name "temp_")

/-- The fixed Instagram acquisition plan of
`Downloader._download_instagram_with_downscaling`; every entry writes through
the same output template `temp_%(title)s.%(ext)s` (`none`: no `-f` flag). -/
def instagramFormatStrategies : List (Option String) :=
  [some "best[ext=mp4]", some "best", some "bestvideo+bestaudio/best", none]

/-- The strategy loop of `_download_instagram_with_downscaling`: run each
strategy; on exit 0 take the first entry of the `temp_*` glob if any; on
failure (or an empty glob) move on.  Nothing is ever deleted. -/
def runStrategies : List StratEnv → FS → Option FileRec × FS
  | [], fs => (none, fs)
  | s :: rest, fs =>
    let fs1 := fs ++ s.created
    if s.exit == 0 then
      match globTemp fs1 with
      | [] => runStrategies rest fs1
      | f :: _ => (some f, fs1)
    else runStrategies rest fs1

/-- Title sanitisation in `_download_tiktok_with_downscaling`. -/
def cleanTitle (s : String) : String :=
  trimL ⟨s.data.filter (fun c => c.isAlphanum || c == ' ' || c == '-' || c == '_')⟩

/-- Post-downscale steps shared verbatim by the Instagram and TikTok paths:
strip audio when excluded, then convert when the requested container is not
mp4.  Results of both are only logged, never turned into failure. -/
def postStepsAfterDownscale (env : Env) (includeAudio : Bool) (outputFormat : String)
    (finalName : String) (fs : FS) : FS × Trace :=
  let s :=
    if !includeAudio then
      let r := removeAudioFromSpecificFile env fs finalName
      (r.1, [(StageTag.stripAudio, r.2)])
    else (fs, ([] : Trace))
  if outputFormat != "" && lowerL outputFormat != "mp4" then
    let c := convertSpecificFileToFormat env s.1 finalName outputFormat
    (c.1, s.2 ++ [(StageTag.convert, c.2)])
  else s

/-- Post-acquisition tail shared by the Instagram and TikTok downscaling
paths: downscale (on failure the high-resolution file is renamed into place
instead), then the optional post steps.  Every branch reports success. -/
def downscaleThenPostSteps (env : Env) (includeAudio : Bool) (outputFormat : String)
    (tempName finalName : String) (targetHeight : Nat) (fs : FS) : FS × Trace :=
  if env.ffmpegAvailable then
    let r := downscale_video env fs tempName finalName targetHeight
    if r.ok then
      let fs2 := fsRemove r.fs tempName
      let p := postStepsAfterDownscale env includeAudio outputFormat finalName fs2
      (p.1, (StageTag.downscale, true) :: p.2)
    else
      let fs2 := fsRename fs tempName finalName
      let p := postStepsAfterDownscale env includeAudio outputFormat finalName fs2
      (p.1, (StageTag.downscale, false) :: p.2)
  else
    let fs2 := fsRename fs tempName finalName
    let p := postStepsAfterDownscale env includeAudio outputFormat finalName fs2
    (p.1, (StageTag.downscale, false) :: p.2)

/-- `Downloader._download_instagram_with_downscaling`. -/
def download_instagram_with_downscaling (env : Env) (targetResolution : String)
    (includeAudio : Bool) (outputFormat : String) (fs0 : FS) : Bool × FS × Trace :=
  match runStrategies env.strategies fs0 with
  | (none, fs1) => (false, fs1, [(StageTag.fetch, false)])
  | (some tempFile, fs1) =>
    let finalName := strReplace tempFile.name "temp_" ""
    let p := downscaleThenPostSteps env includeAudio outputFormat tempFile.name finalName
      (heightOf targetResolution) fs1
    (true, p.1, (StageTag.fetch, true) :: p.2)

/-- `Downloader._download_tiktok_with_downscaling`.  `hash(url)` is runtime
salted, so the hash value lives in the environment. -/
def download_tiktok_with_downscaling (env : Env) (targetResolution : String)
    (includeAudio : Bool) (outputFormat : String) (fs0 : FS) : Bool × FS × Trace :=
  let tempBase := "temp_tiktok_" ++ toString (env.urlHash % 10000)
  let rc := env.tkFetch.1
  let fs1 := fs0 ++ env.tkFetch.2
  if rc == 0 then
    match fs1.filter (fun f => strStarts f.name (tempBase ++ ".")) with
    | [] => (false, fs1, [(StageTag.fetch, true)])
    | tempFile :: _ =>
      let finalName :=
        if env.titleOk then cleanTitle env.titleText ++ "." ++ extRaw tempFile.name
        else "tiktok_video_" ++ targetResolution ++ "." ++ extRaw tempFile.name
      let p := downscaleThenPostSteps env includeAudio outputFormat tempFile.name finalName
        (heightOf targetResolution) fs1
      (true, p.1, (StageTag.fetch, true) :: p.2)
  else (false, fs1, [(StageTag.fetch, false)])

/-- `Downloader._download_audio_only`; its own `try/except` swallows a raised
call, leaving the directory as it was. -/
def download_audio_only (env : Env) (fs : FS) : Bool × FS :=
  match env.audioFetch with
  | Except.error _ => (false, fs)
  | Except.ok (rc, created) => (rc == 0, fs ++ created)

/-- The conditional audio-strip step of the regular download path. -/
def stripStage (env : Env) (includeAudio : Bool) (fs : FS) : FS × Option Bool :=
  if includeAudio then (fs, none)
  else
    let r := removeAudioFromDownloadedFiles env fs
    (r.1, some r.2)

/-- Assemble the regular path's diagnostic trace. -/
def mkTrace (stripR : Option Bool) (convR : Option Bool) : Trace :=
  (StageTag.fetch, true) ::
    ((match stripR with | some b => [(StageTag.stripAudio, b)] | none => []) ++
     (match convR with | some b => [(StageTag.convert, b)] | none => []))

/-- The regular download path of `download_with_options` after the fetch tool
returned: on exit 0 run the optional strip and container-conversion steps and
report success regardless of their outcome; otherwise report failure. -/
def regularAfterFetch (env : Env) (outputFormat : String) (includeAudio : Bool)
    (rc : Int) (fs1 : FS) : Bool × FS × Trace :=
  if rc == 0 then
    let s := stripStage env includeAudio fs1
    let desired := desiredFormatOf outputFormat
    match maxByMtime (videoFiles s.1) with
    | none => (true, s.1, mkTrace s.2 none)
    | some latest =>
      if lowerL (extRaw latest.name) == lowerL desired then (true, s.1, mkTrace s.2 none)
      else
        let c := convert_to_format env s.1 desired
        (true, c.1, mkTrace s.2 (some c.2))
  else (false, fs1, [(StageTag.fetch, false)])

/-- The regular download path: build the command, invoke the fetch tool
(which may raise), then post-process. -/
def regularDownload (env : Env) (resolution : String) (includeAudio : Bool)
    (outputFormat : String) (fs0 : FS) : Except String (Bool × FS × Trace) :=
  let _cmdOpts := build_format_opts resolution includeAudio outputFormat
  match env.fetch with
  | Except.error e => Except.error e
  | Except.ok (rc, created) =>
      Except.ok (regularAfterFetch env outputFormat includeAudio rc (fs0 ++ created))

/-- The body of `Downloader.download_with_options` inside its `try`: URL
validation, dispatch to the audio-only / Instagram / TikTok special paths
(whose failures fall back to the regular path), then the regular path. -/
def downloadWithOptionsBody (env : Env) (url resolution : String) (includeAudio : Bool)
    (outputFormat : String) (audioOnly : Bool) (fs0 : FS) :
    Except String (Bool × FS × Trace) :=
  if !is_valid_url url then Except.ok (false, fs0, [])
  else if audioOnly then
    let r := download_audio_only env fs0
    Except.ok (r.1, r.2, [(StageTag.fetch, r.1)])
  else
    let isIg := strContains (lowerL url) "instagram.com"
    let isTk := strContains (lowerL url) "tiktok.com"
    if isIg && needs_instagram_downscaling resolution then
      let r := download_instagram_with_downscaling env resolution includeAudio outputFormat fs0
      if r.1 then Except.ok r
      else regularDownload env resolution includeAudio outputFormat r.2.1
    else if isTk && needs_tiktok_downscaling resolution then
      let r := download_tiktok_with_downscaling env resolution includeAudio outputFormat fs0
      if r.1 then Except.ok r
      else regularDownload env resolution includeAudio outputFormat r.2.1
    else regularDownload env resolution includeAudio outputFormat fs0

/-- `Downloader.download_with_options`: the body wrapped in the top-level
`try/except Exception`, which maps every raised error to `False`. -/
def download_with_options (env : Env) (url resolution : String) (includeAudio : Bool)
    (outputFormat : String) (audioOnly : Bool) (fs0 : FS) : Bool :=
  match downloadWithOptionsBody env url resolution includeAudio outputFormat audioOnly fs0 with
  | Except.ok (b, _, _) => b
  | Except.error _ => false

/-! ## Sample data for concrete instantiations -/

/-- A baseline environment: tools present, probing works, both transcoder
conversion paths fail (useful for degradation scenarios). -/
def envBase : Env :=
  { ffmpegAvailable := true, probeOk := true, fastCopyOk := false, reencodeOk := false,
    encodeOk := false, removeAudioOk := true, newMtime := 0,
    fetch := Except.ok (0, []), audioFetch := Except.ok (0, []),
    strategies := [], tkFetch := (0, []), urlHash := 0, titleOk := true, titleText := "" }

/-- A stale provisional file left by a failed strategy. -/
def staleF : FileRec := ⟨"temp_old.mp4", 10, some 1080, true⟩

/-- The provisional file produced by the succeeding strategy, newer by mtime. -/
def freshF : FileRec := ⟨"temp_new.mp4", 20, some 1080, true⟩

/-- A partial download left behind by a failed strategy. -/
def partF : FileRec := ⟨"temp_video.mp4.part", 5, none, false⟩

/-! ## Helper lemmas -/

theorem fsFind_fsAdd (fs : FS) (c : FileRec) : fsFind (fsAdd fs c) c.name = some c := by
  unfold fsFind fsAdd fsRemove
  induction fs with
  | nil => simp
  | cons g rest ih =>
    by_cases hg : g.name = c.name
    · simp [List.filter_cons, hg]
    · simp only [List.filter_cons, hg]
      simp [List.find?, hg]

theorem foldl_max_mem (rest : FS) : ∀ f : FileRec,
    rest.foldl (fun best g => if best.mtime < g.mtime then g else best) f ∈ f :: rest := by
  induction rest with
  | nil => intro f; simp
  | cons g gs ih =>
    intro f
    simp only [List.foldl_cons]
    by_cases h : f.mtime < g.mtime
    · simp only [h, if_pos]
      have := ih g
      rcases List.mem_cons.1 this with h1 | h1
      · rw [h1]; simp
      · simp [h1]
    · simp only [h, if_false]
      have := ih f
      rcases List.mem_cons.1 this with h1 | h1
      · rw [h1]; simp
      · simp [h1]

theorem maxByMtime_mem {fs : FS} {f : FileRec} (h : maxByMtime fs = some f) : f ∈ fs := by
  cases fs with
  | nil => simp [maxByMtime] at h
  | cons g rest =>
    simp only [maxByMtime, Option.some.injEq] at h
    subst h
    exact foldl_max_mem rest g

theorem videoFiles_aux (exts : List String) (fs : FS) :
    ∀ acc : FS, (∀ g ∈ acc, g ∈ fs) →
    ∀ g ∈ exts.foldl (fun a e => a ++ fs.filter (fun f0 => extRaw f0.name == e)) acc, g ∈ fs := by
  induction exts with
  | nil => intro acc hacc g hg; exact hacc g hg
  | cons e es ih =>
    intro acc hacc g hg
    refine ih (acc ++ fs.filter (fun f0 => extRaw f0.name == e)) ?_ g hg
    intro x hx
    rcases List.mem_append.1 hx with h | h
    · exact hacc x h
    · exact List.mem_of_mem_filter h

theorem videoFiles_mem {fs : FS} {g : FileRec} (h : g ∈ videoFiles fs) : g ∈ fs :=
  videoFiles_aux videoExts fs [] (by simp) g h

/-! ## Claims -/

/-- C2: for every request with resolution "best", the planner's format
selector carries no height bound: with audio it is exactly
bestvideo+bestaudio/best, without audio a best-video selector, and neither
the single-item nor the playlist selector ever contains a height-bound
clause. -/
theorem best_selector_never_height_bounded :
    format_selector "best" true = "bestvideo+bestaudio/best" ∧
    format_selector "best" false = "bestvideo/best" ∧
    (∀ includeAudio : Bool,
      strContains (format_selector "best" includeAudio) "height<=" = false) ∧
    (∀ includeAudio : Bool,
      strContains (playlist_format_selector "best" includeAudio) "height<=" = false) := by
  refine ⟨by decide, by decide, ?_, ?_⟩ <;> intro a <;> cases a <;> decide

/-- C7: the stderr classifier maps non-empty captured stderr by substring
matching in source order: invalid-URL texts to invalidUrl, then
unavailable/private texts to unavailable, then not-found/404 texts to
notFound, and everything else to unknown carrying the raw (stripped) text. -/
theorem stderr_classifier_table (s : String) (hs : s ≠ "") :
    ((strContains (trimL s) "is not a valid URL" || strContains (trimL s) "Unsupported URL") = true →
      (classify_stderr s).1 = ErrKind.invalidUrl) ∧
    ((strContains (trimL s) "is not a valid URL" || strContains (trimL s) "Unsupported URL") = false →
      (strContains (trimL s) "Video unavailable" || strContains (trimL s) "Private video") = true →
      (classify_stderr s).1 = ErrKind.unavailable) ∧
    ((strContains (trimL s) "is not a valid URL" || strContains (trimL s) "Unsupported URL") = false →
      (strContains (trimL s) "Video unavailable" || strContains (trimL s) "Private video") = false →
      (strContains (trimL s) "not found" || strContains (trimL s) "404") = true →
      (classify_stderr s).1 = ErrKind.notFound) ∧
    ((strContains (trimL s) "is not a valid URL" || strContains (trimL s) "Unsupported URL") = false →
      (strContains (trimL s) "Video unavailable" || strContains (trimL s) "Private video") = false →
      (strContains (trimL s) "not found" || strContains (trimL s) "404") = false →
      classify_stderr s = (ErrKind.unknown, "Could not access video: " ++ trimL s)) := by
  have hne : (s != "") = true := by simpa using hs
  refine ⟨?_, ?_, ?_, ?_⟩
  · intro h1
    simp [classify_stderr, hne, h1]
  · intro h1 h2
    simp [classify_stderr, hne, h1, h2]
  · intro h1 h2 h3
    simp [classify_stderr, hne, h1, h2, h3]
  · intro h1 h2 h3
    simp [classify_stderr, hne, h1, h2, h3]

/-- Witness for C7 at a concrete stderr text. -/
theorem stderr_classifier_table_w :
    (classify_stderr "ERROR: Video unavailable").1 = ErrKind.unavailable :=
  (stderr_classifier_table "ERROR: Video unavailable" (by decide)).2.1 (by decide) (by decide)

/-- C9 counterexample: two batch runs at distinct timestamps (1000 ms and
1500 ms) receive the same subdirectory name, so names do not always differ
across runs. -/
theorem playlist_dir_name_collision :
    (1000 : Nat) ≠ 1500 ∧ playlist_dir_name 1000 = playlist_dir_name 1500 :=
  ⟨by decide, by decide⟩

/-- C9 amended: the batch subdirectory name is deterministic in the
whole-second part of the run timestamp, so any two runs within the same
second receive the same (colliding) name; names differ only across distinct
integer seconds. -/
theorem playlist_dir_name_same_second (t1 t2 : Nat) (h : t1 / 1000 = t2 / 1000) :
    playlist_dir_name t1 = playlist_dir_name t2 := by
  unfold playlist_dir_name
  rw [h]

/-- Witness for the amended C9 at two same-second timestamps. -/
theorem playlist_dir_name_same_second_w :
    playlist_dir_name 2000 = playlist_dir_name 2999 :=
  playlist_dir_name_same_second 2000 2999 (by decide)

/-- C5: when the current container extension already equals the requested
final container, both container-conversion entry points leave the directory
untouched (zero file operations) and report the skipped stage as success. -/
theorem convert_stage_skip_zero_ops :
    (∀ (env : Env) (fs : FS) (targetFormat : String) (latest : FileRec),
      maxByMtime (videoFiles fs) = some latest →
      lowerL (extRaw latest.name) = lowerL targetFormat →
      convert_to_format env fs targetFormat = (fs, true)) ∧
    (∀ (env : Env) (fs : FS) (nm targetFormat : String),
      lowerL (extRaw nm) = lowerL targetFormat →
      convertSpecificFileToFormat env fs nm targetFormat = (fs, true)) := by
  constructor
  · intro env fs t latest hmax hext
    unfold convert_to_format
    rw [hmax]
    simp [hext]
  · intro env fs nm t hext
    unfold convertSpecificFileToFormat
    simp [hext]

/-- Witness for C5 at a concrete directory and file. -/
theorem convert_stage_skip_zero_ops_w :
    convert_to_format envBase [⟨"clip.mp4", 5, some 720, true⟩] "mp4" =
      ([⟨"clip.mp4", 5, some 720, true⟩], true) ∧
    convertSpecificFileToFormat envBase [] "clip.mp4" "MP4" = ([], true) :=
  ⟨convert_stage_skip_zero_ops.1 envBase [⟨"clip.mp4", 5, some 720, true⟩] "mp4"
      ⟨"clip.mp4", 5, some 720, true⟩ (by decide) (by decide),
   convert_stage_skip_zero_ops.2 envBase [] "clip.mp4" "MP4" (by decide)⟩

/-- C4: an artifact whose probed height is already at or below the target is
handled by a metadata-preserving copy: the downscale stage succeeds without
re-encoding and without changing the height, and running the stage again on
the copy is again a copy with no re-encode (idempotence). -/
theorem downscale_skip_noop_idempotent (env : Env) (fs : FS)
    (inName outName outName2 : String) (f : FileRec) (h target : Nat)
    (hav : env.ffmpegAvailable = true) (hp : env.probeOk = true)
    (hf : fsFind fs inName = some f) (hh : f.height = some h) (hle : h ≤ target) :
    downscale_video env fs inName outName target =
      ⟨fsAdd fs { f with name := outName }, true, false⟩ ∧
    downscale_video env (fsAdd fs { f with name := outName }) outName outName2 target =
      ⟨fsAdd (fsAdd fs { f with name := outName }) { f with name := outName2 },
       true, false⟩ := by
  constructor
  · unfold downscale_video
    rw [hf]
    simp [hav, probeHeight, hp, hh, hle]
  · have hfind : fsFind (fsAdd fs { f with name := outName }) outName =
        some { f with name := outName } :=
      fsFind_fsAdd fs { f with name := outName }
    unfold downscale_video
    rw [hfind]
    simp [hav, probeHeight, hp, hh, hle]

/-- Witness for C4 at a 480p artifact and a 720p target. -/
theorem downscale_skip_noop_idempotent_w :
    downscale_video envBase [⟨"a.mp4", 100, some 480, true⟩] "a.mp4" "b.mp4" 720 =
      ⟨fsAdd [⟨"a.mp4", 100, some 480, true⟩] ⟨"b.mp4", 100, some 480, true⟩, true, false⟩ ∧
    downscale_video envBase
        (fsAdd [⟨"a.mp4", 100, some 480, true⟩] ⟨"b.mp4", 100, some 480, true⟩)
        "b.mp4" "c.mp4" 720 =
      ⟨fsAdd (fsAdd [⟨"a.mp4", 100, some 480, true⟩] ⟨"b.mp4", 100, some 480, true⟩)
          ⟨"c.mp4", 100, some 480, true⟩, true, false⟩ :=
  downscale_skip_noop_idempotent envBase [⟨"a.mp4", 100, some 480, true⟩]
    "a.mp4" "b.mp4" "c.mp4" ⟨"a.mp4", 100, some 480, true⟩ 480 720
    rfl rfl (by decide) rfl (by decide)

/-- C3 counterexample: a failed first strategy leaves a stale provisional
file; the succeeding second strategy creates a newer one, yet the executor
selects the stale (first-listed) file rather than the newest by mtime; the
stale file was not cleaned up and both share the same temp prefix. -/
theorem strategy_selection_not_by_mtime :
    (runStrategies [⟨1, [staleF]⟩, ⟨0, [freshF]⟩] []).1 = some staleF ∧
    maxByMtime (globTemp (runStrategies [⟨1, [staleF]⟩, ⟨0, [freshF]⟩] []).2) = some freshF ∧
    staleF ≠ freshF ∧
    staleF ∈ (runStrategies [⟨1, [staleF]⟩, ⟨0, [freshF]⟩] []).2 ∧
    strStarts staleF.name "temp_" = true ∧ strStarts freshF.name "temp_" = true := by
  decide

/-- C3 amended: on a successful exit the executor selects the first entry of
the shared `temp_*` glob in directory-listing order (not the newest by
mtime), and no file is ever removed between strategies (the final directory
extends the initial one). -/
theorem strategy_selection_first_temp_no_cleanup (se : List StratEnv) (fs0 : FS) :
    (∃ rest, (runStrategies se fs0).2 = fs0 ++ rest) ∧
    ((runStrategies se fs0).1 = none ∨
      (runStrategies se fs0).1 = (globTemp (runStrategies se fs0).2).head?) := by
  induction se generalizing fs0 with
  | nil => exact ⟨⟨[], by simp [runStrategies]⟩, Or.inl rfl⟩
  | cons s rest ih =>
    simp only [runStrategies]
    by_cases hz : (s.exit == 0) = true
    · rw [if_pos hz]
      cases hg : globTemp (fs0 ++ s.created) with
      | nil =>
        obtain ⟨⟨r, hr⟩, hsel⟩ := ih (fs0 ++ s.created)
        exact ⟨⟨s.created ++ r, by rw [hr, List.append_assoc]⟩, hsel⟩
      | cons f t =>
        refine ⟨⟨s.created, rfl⟩, Or.inr ?_⟩
        simp [hg]
    · rw [if_neg hz]
      obtain ⟨⟨r, hr⟩, hsel⟩ := ih (fs0 ++ s.created)
      exact ⟨⟨s.created ++ r, by rw [hr, List.append_assoc]⟩, hsel⟩

/-- When every strategy exits non-zero the loop returns no artifact and the
directory ends as the initial one plus everything the failed invocations
created: nothing is deleted. -/
theorem runStrategies_all_fail (se : List StratEnv) (fs0 : FS)
    (h : ∀ s ∈ se, ¬s.exit = 0) :
    runStrategies se fs0 = (none, fs0 ++ (se.map StratEnv.created).flatten) := by
  induction se generalizing fs0 with
  | nil => simp [runStrategies]
  | cons s rest ih =>
    have hs : ¬s.exit = 0 := h s (by simp)
    have hz : (s.exit == 0) = false := by simp [hs]
    simp only [runStrategies, hz, if_false]
    rw [ih (fs0 ++ s.created) (fun t ht => h t (by simp [ht]))]
    simp [List.append_assoc]

/-- The environment of the exhaustion scenario: four strategies, all failing,
the first leaving a partial provisional file behind. -/
def envFail : Env :=
  { envBase with strategies := [⟨1, [partF]⟩, ⟨1, []⟩, ⟨1, []⟩, ⟨1, []⟩] }

/-- C6 counterexample: with every strategy failing, the job does return
failure, but the working directory still holds the provisional partial file
of the first failed strategy — not zero leftovers (and the outcome is a bare
boolean with no error kind attached). -/
theorem exhaustion_leaves_provisional_file :
    download_instagram_with_downscaling envFail "480p" true "mp4" [] =
      (false, [partF], [(StageTag.fetch, false)]) ∧
    globTemp [partF] ≠ [] := by
  constructor
  · decide
  · decide

/-- C6 amended: when all strategies of the plan exit non-zero the job outcome
is success=false, but the code performs no stderr classification (the result
carries no error kind) and no cleanup: the working directory keeps every
provisional file the failed invocations created. -/
theorem exhaustion_false_no_cleanup (env : Env) (res : String) (audio : Bool)
    (fmt : String) (fs0 : FS) (h : ∀ s ∈ env.strategies, ¬s.exit = 0) :
    download_instagram_with_downscaling env res audio fmt fs0 =
      (false, fs0 ++ (env.strategies.map StratEnv.created).flatten,
       [(StageTag.fetch, false)]) := by
  unfold download_instagram_with_downscaling
  rw [runStrategies_all_fail env.strategies fs0 h]

/-- Witness for the amended C6 at the concrete exhaustion environment. -/
theorem exhaustion_false_no_cleanup_w :
    download_instagram_with_downscaling envFail "480p" true "mp4" [] =
      (false, ([] : FS) ++ (envFail.strategies.map StratEnv.created).flatten,
       [(StageTag.fetch, false)]) :=
  exhaustion_false_no_cleanup envFail "480p" true "mp4" [] (by decide)

/-- With both transcoder paths failing, a needed conversion of the latest
video file changes nothing and reports failure. -/
theorem convert_to_format_fail (env : Env) (fs : FS) (target : String) (latest : FileRec)
    (hmax : maxByMtime (videoFiles fs) = some latest)
    (hext : (lowerL (extRaw latest.name) == lowerL target) = false)
    (hc : env.fastCopyOk = false) (hr : env.reencodeOk = false) :
    convert_to_format env fs target = (fs, false) := by
  have hco : convertOutcome env (lowerL target) = false := by
    unfold convertOutcome
    split <;> simp [hc, hr]
  unfold convert_to_format
  rw [hmax]
  simp [hext, hco]

/-- Same for the by-name conversion entry point. -/
theorem convert_specific_fail (env : Env) (fs : FS) (nm fmt : String)
    (hc : env.fastCopyOk = false) (hr : env.reencodeOk = false)
    (hext : (lowerL (extRaw nm) == lowerL fmt) = false) :
    convertSpecificFileToFormat env fs nm fmt = (fs, false) := by
  have hco : convertOutcome env (lowerL fmt) = false := by
    unfold convertOutcome
    split <;> simp [hc, hr]
  unfold convertSpecificFileToFormat
  simp only [hext, Bool.false_eq_true, if_false]
  split
  · rfl
  · split
    · rfl
    · simp [hco]

/-- C1: acquisition success is never undone by a failed container-convert
stage.  On the regular path, when both transcoder paths fail the job still
returns success, the directory (and so the pre-conversion artifact) is
unchanged, and the trace records the failed convert stage; on the Instagram
and TikTok paths any located artifact makes the job report success no matter
what the post-processing stages do; and a failed specific-file conversion
never removes its input. -/
theorem convert_failure_degrades_gracefully :
    (∀ (env : Env) (res fmt : String) (audio : Bool) (fs0 created : FS) (latest : FileRec),
      env.fetch = Except.ok (0, created) →
      env.fastCopyOk = false → env.reencodeOk = false →
      maxByMtime (videoFiles (stripStage env audio (fs0 ++ created)).1) = some latest →
      (lowerL (extRaw latest.name) == lowerL (desiredFormatOf fmt)) = false →
      regularDownload env res audio fmt fs0 =
        Except.ok (true, (stripStage env audio (fs0 ++ created)).1,
          mkTrace (stripStage env audio (fs0 ++ created)).2 (some false)) ∧
      latest ∈ (stripStage env audio (fs0 ++ created)).1) ∧
    (∀ (env : Env) (res fmt : String) (audio : Bool) (fs0 fs1 : FS) (f : FileRec),
      runStrategies env.strategies fs0 = (some f, fs1) →
      (download_instagram_with_downscaling env res audio fmt fs0).1 = true) ∧
    (∀ (env : Env) (res fmt : String) (audio : Bool) (fs0 t : FS) (g : FileRec),
      env.tkFetch.1 = 0 →
      (fs0 ++ env.tkFetch.2).filter
          (fun f => strStarts f.name
            ("temp_tiktok_" ++ toString (env.urlHash % 10000) ++ ".")) = g :: t →
      (download_tiktok_with_downscaling env res audio fmt fs0).1 = true) ∧
    (∀ (env : Env) (fs : FS) (nm fmt : String),
      env.fastCopyOk = false → env.reencodeOk = false →
      (lowerL (extRaw nm) == lowerL fmt) = false →
      convertSpecificFileToFormat env fs nm fmt = (fs, false)) := by
  refine ⟨?_, ?_, ?_, ?_⟩
  · intro env res fmt audio fs0 created latest hfetch hc hr hmax hext
    have hcf := convert_to_format_fail env (stripStage env audio (fs0 ++ created)).1
      (desiredFormatOf fmt) latest hmax hext hc hr
    constructor
    · simp only [regularDownload, hfetch]
      simp only [regularAfterFetch]
      simp [hmax, hext, hcf]
    · exact videoFiles_mem (maxByMtime_mem hmax)
  · intro env res fmt audio fs0 fs1 f hrun
    unfold download_instagram_with_downscaling
    rw [hrun]
  · intro env res fmt audio fs0 t g h0 hfilter
    unfold download_tiktok_with_downscaling
    rw [h0]
    simp [hfilter]
  · intro env fs nm fmt hc hr hext
    exact convert_specific_fail env fs nm fmt hc hr hext

/-- The environment of the regular-path degradation scenario: the fetch
succeeds, leaving a webm artifact, and both transcoder paths fail. -/
def envReg : Env :=
  { envBase with fetch := Except.ok (0, [⟨"vid.webm", 50, some 720, true⟩]) }

/-- The environment of the Instagram degradation scenario: the single
strategy succeeds. -/
def envIg : Env := { envBase with strategies := [⟨0, [freshF]⟩] }

/-- The environment of the TikTok degradation scenario. -/
def envTk : Env :=
  { envBase with tkFetch := (0, [⟨"temp_tiktok_0.mp4", 7, some 1080, true⟩]) }

/-- Witness for C1 at concrete environments for each conjunct. -/
theorem convert_failure_degrades_gracefully_w :
    regularDownload envReg "best" true "mp4" [] =
      Except.ok (true, (stripStage envReg true ([] ++ [⟨"vid.webm", 50, some 720, true⟩])).1,
        mkTrace (stripStage envReg true ([] ++ [⟨"vid.webm", 50, some 720, true⟩])).2
          (some false)) ∧
    (download_instagram_with_downscaling envIg "480p" true "mkv" []).1 = true ∧
    (download_tiktok_with_downscaling envTk "480p" true "mkv" []).1 = true ∧
    convertSpecificFileToFormat envBase [] "a.webm" "mp4" = ([], false) :=
  ⟨(convert_failure_degrades_gracefully.1 envReg "best" "mp4" true []
      [⟨"vid.webm", 50, some 720, true⟩] ⟨"vid.webm", 50, some 720, true⟩
      rfl rfl rfl (by decide) (by decide)).1,
   convert_failure_degrades_gracefully.2.1 envIg "480p" "mkv" true [] [freshF] freshF
      (by decide),
   convert_failure_degrades_gracefully.2.2.1 envTk "480p" "mkv" true [] []
      ⟨"temp_tiktok_0.mp4", 7, some 1080, true⟩ rfl (by decide),
   convert_failure_degrades_gracefully.2.2.2 envBase [] "a.webm" "mp4" rfl rfl (by decide)⟩

theorem strData_append (a b : String) : (a ++ b).data = a.data ++ b.data := rfl

theorem strHead_append (a b : String) (c : Char) (h : a.data.head? = some c) :
    (a ++ b).data.head? = some c := by
  rw [strData_append]
  rcases hd : a.data with _ | ⟨x, xs⟩
  · rw [hd] at h; simp at h
  · rw [hd] at h
    simp only [List.head?] at h
    simp [h]

/-- Every selector the planner can emit starts with the letter b. -/
theorem format_selector_head (res : String) (audio : Bool) :
    (format_selector res audio).data.head? = some 'b' := by
  unfold format_selector
  by_cases hres : (res == "best") = true
  · rw [if_pos hres]
    cases audio <;> rfl
  · rw [if_neg (by simp [hres])]
    cases audio <;> simp only [Bool.false_eq_true, if_false, if_true]
    · exact strHead_append _ _ _ (strHead_append _ _ _ (strHead_append _ _ _
        (strHead_append _ _ _ rfl)))
    · exact strHead_append _ _ _ (strHead_append _ _ _ (strHead_append _ _ _
        (strHead_append _ _ _ rfl)))

/-- A selector never equals a string that starts with a dash. -/
theorem format_selector_ne_dash (res : String) (audio : Bool) (t : String)
    (ht : t.data.head? = some '-') : format_selector res audio ≠ t := by
  intro he
  have h1 := format_selector_head res audio
  rw [he, ht] at h1
  simp at h1

/-- C8: a mov request never adds an inline remux or recode flag to the fetch
command (the flag block is empty, for the single-item planner and the
playlist duplicate alike), and on the regular path the conversion to mov is
performed by the post-processing convert stage, strictly after the fetch
stage succeeded. -/
theorem mov_conversion_deferred :
    (∀ (res : String) (audio : Bool),
      build_format_opts res audio "mov" = ["-f", format_selector res audio] ∧
      "--remux-video" ∉ build_format_opts res audio "mov" ∧
      "--recode-video" ∉ build_format_opts res audio "mov") ∧
    container_flags "mov" = [] ∧
    (∀ (env : Env) (res : String) (audio : Bool) (fs0 created : FS) (latest : FileRec),
      env.fetch = Except.ok (0, created) →
      maxByMtime (videoFiles (stripStage env audio (fs0 ++ created)).1) = some latest →
      (lowerL (extRaw latest.name) == lowerL (desiredFormatOf "mov")) = false →
      ∃ tr,
        regularDownload env res audio "mov" fs0 =
          Except.ok (true,
            (convert_to_format env (stripStage env audio (fs0 ++ created)).1
              (desiredFormatOf "mov")).1,
            (StageTag.fetch, true) :: tr) ∧
        (StageTag.convert,
          (convert_to_format env (stripStage env audio (fs0 ++ created)).1
            (desiredFormatOf "mov")).2) ∈ tr) := by
  have hflags : container_flags "mov" = [] := by decide
  refine ⟨?_, hflags, ?_⟩
  · intro res audio
    refine ⟨by simp [build_format_opts, hflags], ?_, ?_⟩
    · simp only [build_format_opts, hflags, List.append_nil, List.mem_cons,
        List.not_mem_nil, or_false]
      push_neg
      exact ⟨by decide,
        fun he => format_selector_ne_dash res audio "--remux-video" rfl he.symm⟩
    · simp only [build_format_opts, hflags, List.append_nil, List.mem_cons,
        List.not_mem_nil, or_false]
      push_neg
      exact ⟨by decide,
        fun he => format_selector_ne_dash res audio "--recode-video" rfl he.symm⟩
  · intro env res audio fs0 created latest hfetch hmax hext
    refine ⟨(match (stripStage env audio (fs0 ++ created)).2 with
        | some b => [(StageTag.stripAudio, b)] | none => []) ++
        [(StageTag.convert,
          (convert_to_format env (stripStage env audio (fs0 ++ created)).1
            (desiredFormatOf "mov")).2)], ?_, by simp⟩
    simp only [regularDownload, hfetch]
    simp only [regularAfterFetch]
    simp [hmax, hext, mkTrace]

/-- Witness for C8: the flag facts at a concrete request, and the deferred
conversion on the regular path at a concrete environment. -/
theorem mov_conversion_deferred_w :
    build_format_opts "720p" true "mov" = ["-f", format_selector "720p" true] ∧
    (∃ tr,
      regularDownload envReg "best" true "mov" [] =
        Except.ok (true,
          (convert_to_format envReg
            (stripStage envReg true ([] ++ [⟨"vid.webm", 50, some 720, true⟩])).1
            (desiredFormatOf "mov")).1,
          (StageTag.fetch, true) :: tr) ∧
      (StageTag.convert,
        (convert_to_format envReg
          (stripStage envReg true ([] ++ [⟨"vid.webm", 50, some 720, true⟩])).1
          (desiredFormatOf "mov")).2) ∈ tr) :=
  ⟨(mov_conversion_deferred.1 "720p" true).1,
   mov_conversion_deferred.2.2 envReg "best" true [] [⟨"vid.webm", 50, some 720, true⟩]
     ⟨"vid.webm", 50, some 720, true⟩ rfl (by decide) (by decide)⟩

/-- C10: the public single-item download operation is total: a raised internal
error is caught by the top-level handler and mapped to the boolean `false`, a
normally-computed outcome is returned as its boolean, and the only way the
body can raise at all is the external fetch invocation — whenever that call
returns normally, the body computes a normal outcome on every input. -/
theorem download_with_options_total :
    (∀ (env : Env) (url res : String) (audio : Bool) (fmt : String) (ao : Bool)
        (fs0 : FS) (e : String),
      downloadWithOptionsBody env url res audio fmt ao fs0 = Except.error e →
      download_with_options env url res audio fmt ao fs0 = false) ∧
    (∀ (env : Env) (url res : String) (audio : Bool) (fmt : String) (ao : Bool)
        (fs0 fs1 : FS) (b : Bool) (tr : Trace),
      downloadWithOptionsBody env url res audio fmt ao fs0 = Except.ok (b, fs1, tr) →
      download_with_options env url res audio fmt ao fs0 = b) ∧
    (∀ (env : Env) (url res : String) (audio : Bool) (fmt : String) (ao : Bool)
        (fs0 created : FS) (rc : Int),
      env.fetch = Except.ok (rc, created) →
      ∃ r, downloadWithOptionsBody env url res audio fmt ao fs0 = Except.ok r) := by
  refine ⟨?_, ?_, ?_⟩
  · intro env url res audio fmt ao fs0 e h
    unfold download_with_options
    rw [h]
  · intro env url res audio fmt ao fs0 fs1 b tr h
    unfold download_with_options
    rw [h]
  · intro env url res audio fmt ao fs0 created rc h
    have hreg : ∀ fsx : FS, regularDownload env res audio fmt fsx =
        Except.ok (regularAfterFetch env fmt audio rc (fsx ++ created)) := by
      intro fsx
      simp [regularDownload, h]
    unfold downloadWithOptionsBody
    split
    · exact ⟨_, rfl⟩
    · split
      · exact ⟨_, rfl⟩
      · dsimp only
        split
        · split
          · exact ⟨_, rfl⟩
          · exact ⟨_, hreg _⟩
        · split
          · split
            · exact ⟨_, rfl⟩
            · exact ⟨_, hreg _⟩
          · exact ⟨_, hreg _⟩

/-- The environment of the raising-fetch scenario. -/
def envErr : Env := { envBase with fetch := Except.error "oserror" }

/-- Witness for C10: a raising fetch is caught and mapped to false; a normal
run returns its boolean; a normally-returning fetch admits a normal outcome. -/
theorem download_with_options_total_w :
    download_with_options envErr "https://www.youtube.com/watch?v=a" "best"
      true "mp4" false [] = false ∧
    download_with_options envBase "https://www.youtube.com/watch?v=a" "best"
      true "mp4" false [] = true ∧
    (∃ r, downloadWithOptionsBody envBase "https://www.youtube.com/watch?v=a" "best"
      true "mp4" false [] = Except.ok r) :=
  ⟨download_with_options_total.1 envErr "https://www.youtube.com/watch?v=a" "best"
      true "mp4" false [] "oserror" rfl,
   download_with_options_total.2.1 envBase "https://www.youtube.com/watch?v=a" "best"
      true "mp4" false [] [] true (mkTrace none none) rfl,
   download_with_options_total.2.2 envBase "https://www.youtube.com/watch?v=a" "best"
      true "mp4" false [] [] 0 rfl⟩

end Velora
